import Mathlib

/-!
Verification development for the session lifecycle and persistence layer of the
AI-PC-BUILDER Discord bot (source file discord_pc_bot.py).  Python strings are
embedded as lists of characters, machine integers as Nat/Int, the external
text-generation collaborator as an explicit outcome value, and fallible code as
total functions whose exception paths are modelled explicitly.
-/

namespace PCBot

/-- A Python string, embedded as its list of characters. -/
abbrev Str := List Char

/-- The apostrophe character (U+0027), used to build string constants that
contain it. -/
def apos : Char := Char.ofNat 39

/-- Python str.lower on one character (ASCII range, which covers every
keyword the code compares against). -/
def lowerChar (c : Char) : Char := c.toLower

/-- Python str.lower. -/
def lowerStr (s : Str) : Str := s.map lowerChar

/-- Python " ".join: concatenate a list of strings with a single space
between consecutive elements. -/
def joinSp : List Str → Str
  | [] => []
  | [t] => t
  | t :: u :: r => t ++ ' ' :: joinSp (u :: r)

/-- The Python membership test `word in text` (contiguous substring). -/
def containsTok (text tok : Str) : Bool := decide (tok <:+: text)

/-- Python `any(word in text for word in words)`. -/
def containsAny (text : Str) (toks : List Str) : Bool :=
  toks.any (fun tok => containsTok text tok)

/-- Python `any(char.isdigit() for char in text)` (ASCII digits). -/
def hasDigit (text : Str) : Bool := text.any Char.isDigit

@[simp] lemma joinSp_nil : joinSp [] = [] := rfl

@[simp] lemma joinSp_singleton (t : Str) : joinSp [t] = t := rfl

lemma joinSp_cons_cons (t u : Str) (r : List Str) :
    joinSp (t :: u :: r) = t ++ ' ' :: joinSp (u :: r) := rfl

/-- A token without a space that is a prefix of `u ++ ' ' :: v` is a prefix
of `u`. -/
lemma prefix_through_sep {tok u v : Str} (hsp : ' ' ∉ tok)
    (h : tok <+: u ++ ' ' :: v) : tok <+: u := by
  induction u generalizing tok with
  | nil =>
    cases tok with
    | nil => exact List.nil_prefix
    | cons c t =>
      rcases h with ⟨w, hw⟩
      simp only [List.nil_append, List.cons_append] at hw
      cases hw
      exact absurd (List.mem_cons_self _ _) hsp
  | cons y u ih =>
    cases tok with
    | nil => exact List.nil_prefix
    | cons c t =>
      rcases h with ⟨w, hw⟩
      simp only [List.cons_append] at hw
      obtain ⟨rfl, hw⟩ := List.cons.inj hw
      have ht : t <+: u := by
        refine ih (fun hm => hsp (List.mem_cons_of_mem _ hm)) ⟨w, ?_⟩
        simpa using hw
      exact List.cons_prefix_cons.2 ⟨rfl, ht⟩

/-- A token without a space that is an infix of `a ++ ' ' :: b` lies entirely
inside `a` or entirely inside `b`. -/
lemma infix_split_sep {tok a b : Str} (hsp : ' ' ∉ tok)
    (h : tok <:+: a ++ ' ' :: b) : tok <:+: a ∨ tok <:+: b := by
  induction a generalizing tok with
  | nil =>
    simp only [List.nil_append] at h
    rcases List.infix_cons_iff.1 h with hpre | hin
    · cases tok with
      | nil => exact Or.inl ⟨[], [], rfl⟩
      | cons c t =>
        rcases List.cons_prefix_cons.1 hpre with ⟨rfl, -⟩
        exact absurd (List.mem_cons_self _ _) hsp
    · exact Or.inr hin
  | cons y a ih =>
    simp only [List.cons_append] at h
    rcases List.infix_cons_iff.1 h with hpre | hin
    · have : tok <+: y :: a := prefix_through_sep hsp (by simpa using hpre)
      exact Or.inl this.isInfix
    · rcases ih hsp hin with ha | hb
      · exact Or.inl (ha.trans ⟨[y], [], by simp⟩)
      · exact Or.inr hb

/-- Because members are joined with a single space, a nonempty space-free
token occurs in the join exactly when it occurs in one of the members. -/
lemma infix_joinSp_iff {tok : Str} (hne : tok ≠ []) (hsp : ' ' ∉ tok)
    (l : List Str) : tok <:+: joinSp l ↔ ∃ t ∈ l, tok <:+: t := by
  induction l with
  | nil =>
    simp only [joinSp_nil, List.not_mem_nil]
    constructor
    · intro h
      rcases h with ⟨s, t, hst⟩
      rcases List.append_eq_nil.1 hst with ⟨hs, -⟩
      rcases List.append_eq_nil.1 hs with ⟨-, htok⟩
      exact absurd htok hne
    · rintro ⟨t, ht, -⟩
      exact ht.elim
  | cons t r ih =>
    cases r with
    | nil =>
      simp [joinSp_singleton]
    | cons u r =>
      rw [joinSp_cons_cons]
      constructor
      · intro h
        rcases infix_split_sep hsp h with ht | hr
        · exact ⟨t, List.mem_cons_self _ _, ht⟩
        · rcases ih.1 hr with ⟨w, hw, hww⟩
          exact ⟨w, List.mem_cons_of_mem _ hw, hww⟩
      · rintro ⟨w, hw, hww⟩
        rcases List.mem_cons.1 hw with rfl | hw
        · exact hww.trans ⟨[], ' ' :: joinSp (u :: r), by simp⟩
        · refine (ih.2 ⟨w, hw, hww⟩).trans ?_
          exact ⟨t ++ [' '], [], by simp⟩

/-- A character predicate false on the space holds somewhere in the join
exactly when it holds somewhere in a member. -/
lemma any_joinSp_iff (p : Char → Bool) (hp : p ' ' = false) (l : List Str) :
    (joinSp l).any p = true ↔ ∃ t ∈ l, t.any p = true := by
  induction l with
  | nil => simp
  | cons t r ih =>
    cases r with
    | nil => simp [joinSp_singleton]
    | cons u r =>
      rw [joinSp_cons_cons]
      simp only [List.any_append, List.any_cons, hp, Bool.false_or,
        Bool.or_eq_true, ih, List.mem_cons]
      constructor
      · rintro (h | ⟨w, hw, hww⟩)
        · exact ⟨t, Or.inl rfl, h⟩
        · exact ⟨w, Or.inr hw, hww⟩
      · rintro ⟨w, rfl | hw, hww⟩
        · exact Or.inl hww
        · exact Or.inr ⟨w, hw, hww⟩

/-- str.lower distributes over " ".join (the space is its own lower case). -/
lemma lowerStr_joinSp (l : List Str) :
    lowerStr (joinSp l) = joinSp (l.map lowerStr) := by
  induction l with
  | nil => rfl
  | cons t r ih =>
    cases r with
    | nil => rfl
    | cons u r =>
      simp only [List.map_cons] at ih ⊢
      rw [joinSp_cons_cons, joinSp_cons_cons, lowerStr, List.map_append]
      simp only [List.map_cons]
      have : lowerChar ' ' = ' ' := by decide
      rw [this]
      exact congrArg _ (congrArg _ ih)

/-- One message of a session chat history (a dict with keys role and text). -/
structure ChatMsg where
  role : Str
  text : Str
deriving DecidableEq, Repr

/-- The concatenated lowercase transcript built from a list of message
texts: Python " ".join(texts).lower(). -/
def chatTextOf (texts : List Str) : Str := lowerStr (joinSp texts)

/-- Dictionary lookup in session.answers, embedded as an association list
(first binding wins; the Python dict has at most one binding per key). -/
def lookupAnswer (answers : List (Str × Str)) (k : Str) : Option Str :=
  (answers.find? (fun p => p.1 = k)).map Prod.snd

/-- Python `field in session.answers and session.answers[field]`:
the key is present with a truthy (nonempty) value. -/
def answerTruthy (answers : List (Str × Str)) (k : Str) : Bool :=
  match lookupAnswer answers k with
  | some v => !v.isEmpty
  | none => false

/-- Keyword list for the budget slot fallback (are_all_fields_collected). -/
def budgetWords : List Str :=
  ["$".toList, "dollar".toList, "budget".toList, "price".toList,
   "cost".toList, "around".toList, "under".toList, "over".toList]

/-- Keyword list for the color slot fallback. -/
def colorWords : List Str :=
  ["black".toList, "white".toList, "red".toList, "blue".toList,
   "green".toList, "pink".toList, "purple".toList, "rgb".toList]

/-- Keyword list for the rgb_level slot fallback. -/
def rgbWords : List Str :=
  ["rgb".toList, "light".toList, "led".toList, "none".toList,
   "lots".toList, "some".toList]

/-- Keyword list for the aesthetics slot fallback. -/
def aestheticsWords : List Str :=
  ["look".toList, "aesthetic".toList, "style".toList,
   "performance".toList, "balanced".toList]

/-- Keyword list for the use_case slot fallback. -/
def useCaseWords : List Str :=
  ["fortnite".toList, "league".toList, "minecraft".toList,
   "valorant".toList, "gaming".toList, "streaming".toList, "work".toList]

/-- Keyword list for the upgradeability slot fallback (the second entry of
the Python list is the contraction of will not, written with an
apostrophe). -/
def upgradeWords : List Str :=
  ["upgrade".toList, "wont".toList,
   "won".toList ++ apos :: "t".toList,
   "might".toList, "will".toList, "nah".toList]

/-- Keyword list for the extra_notes slot fallback. -/
def notesWords : List Str :=
  ["special".toList, "request".toList, "requirement".toList,
   "need".toList, "want".toList, "none".toList, "no".toList, "nah".toList]

/-- The seven per-slot booleans computed by are_all_fields_collected, in
source order (budget, color, rgb_level, aesthetics, use_case,
upgradeability, extra_notes).  Each slot counts as collected when its
structured answer is truthy or its keyword fallback fires on the
concatenated lowercase transcript `ct` (for budget the fallback also
requires a digit somewhere in the transcript). -/
def fieldFlags (answers : List (Str × Str)) (ct : Str) : List Bool :=
  [ answerTruthy answers "budget".toList ||
      (containsAny ct budgetWords && hasDigit ct),
    answerTruthy answers "color".toList || containsAny ct colorWords,
    answerTruthy answers "rgb_level".toList || containsAny ct rgbWords,
    answerTruthy answers "aesthetics".toList || containsAny ct aestheticsWords,
    answerTruthy answers "use_case".toList || containsAny ct useCaseWords,
    answerTruthy answers "upgradeability".toList || containsAny ct upgradeWords,
    answerTruthy answers "extra_notes".toList || containsAny ct notesWords ]

/-- The per-user Session Record (class PCBuilderSession).  The two timestamp
fields are Option because from_dict uses dict.get and can leave them None. -/
structure PCBuilderSession where
  user_id : Nat
  chat_history : List ChatMsg
  answers : List (Str × Str)
  build_result : Str
  refinement_mode : Bool
  conversation_mode : Bool
  feedback_mode : Bool
  user_feedback : Str
  build_edits : List Str
  created_at : Option Str
  last_activity : Option Str
deriving DecidableEq, Repr

/-- chat_text of are_all_fields_collected:
`" ".join([msg.get('text', '') for msg in session.chat_history]).lower()`. -/
def chatText (hist : List ChatMsg) : Str := chatTextOf (hist.map ChatMsg.text)

/-- are_all_fields_collected: the session is complete when at least 7 of the
seven per-slot booleans hold (the source counts the collected essential
fields and compares with 7). -/
def are_all_fields_collected (s : PCBuilderSession) : Bool :=
  decide (7 ≤ (fieldFlags s.answers (chatText s.chat_history)).countP id)

lemma countP_id_full {l : List Bool} :
    l.length ≤ l.countP id ↔ ∀ b ∈ l, b = true := by
  constructor
  · intro h b hb
    have hlen : l.countP id = l.length :=
      le_antisymm (l.countP_le_length id) h
    exact List.countP_eq_length.1 hlen b hb
  · intro h
    exact le_of_eq (List.countP_eq_length.2 h).symm

/-- The completion check holds exactly when all seven slot booleans hold. -/
lemma are_all_fields_collected_iff (s : PCBuilderSession) :
    are_all_fields_collected s = true ↔
      ∀ b ∈ fieldFlags s.answers (chatText s.chat_history), b = true := by
  have hlen : (fieldFlags s.answers (chatText s.chat_history)).length = 7 := rfl
  rw [are_all_fields_collected, decide_eq_true_iff, ← hlen]
  exact countP_id_full

/-- Keyword search over the joined lowercase transcript reduces to keyword
search inside the individual message texts. -/
lemma containsAny_chatTextOf (toks : List Str)
    (hgood : ∀ tok ∈ toks, tok ≠ [] ∧ ' ' ∉ tok) (texts : List Str) :
    containsAny (chatTextOf texts) toks = true ↔
      ∃ tok ∈ toks, ∃ t ∈ texts, tok <:+: lowerStr t := by
  rw [containsAny, List.any_eq_true]
  constructor
  · rintro ⟨tok, htok, hc⟩
    rw [containsTok, decide_eq_true_iff, chatTextOf, lowerStr_joinSp,
      infix_joinSp_iff (hgood tok htok).1 (hgood tok htok).2] at hc
    rcases hc with ⟨u, hu, huu⟩
    rcases List.mem_map.1 hu with ⟨t, ht, rfl⟩
    exact ⟨tok, htok, t, ht, huu⟩
  · rintro ⟨tok, htok, t, ht, htt⟩
    refine ⟨tok, htok, ?_⟩
    rw [containsTok, decide_eq_true_iff, chatTextOf, lowerStr_joinSp,
      infix_joinSp_iff (hgood tok htok).1 (hgood tok htok).2]
    exact ⟨lowerStr t, List.mem_map_of_mem _ ht, htt⟩

/-- Digit search over the joined lowercase transcript reduces to digit
search inside the individual message texts. -/
lemma hasDigit_chatTextOf (texts : List Str) :
    hasDigit (chatTextOf texts) = true ↔
      ∃ t ∈ texts, (lowerStr t).any Char.isDigit = true := by
  rw [hasDigit, chatTextOf, lowerStr_joinSp,
    any_joinSp_iff Char.isDigit (by decide)]
  constructor
  · rintro ⟨u, hu, huu⟩
    rcases List.mem_map.1 hu with ⟨t, ht, rfl⟩
    exact ⟨t, ht, huu⟩
  · rintro ⟨t, ht, htt⟩
    exact ⟨lowerStr t, List.mem_map_of_mem _ ht, htt⟩

lemma budgetWords_good : ∀ tok ∈ budgetWords, tok ≠ [] ∧ ' ' ∉ tok := by decide

lemma colorWords_good : ∀ tok ∈ colorWords, tok ≠ [] ∧ ' ' ∉ tok := by decide

lemma rgbWords_good : ∀ tok ∈ rgbWords, tok ≠ [] ∧ ' ' ∉ tok := by decide

lemma aestheticsWords_good :
    ∀ tok ∈ aestheticsWords, tok ≠ [] ∧ ' ' ∉ tok := by decide

lemma useCaseWords_good : ∀ tok ∈ useCaseWords, tok ≠ [] ∧ ' ' ∉ tok := by
  decide

lemma upgradeWords_good : ∀ tok ∈ upgradeWords, tok ≠ [] ∧ ' ' ∉ tok := by
  decide

lemma notesWords_good : ∀ tok ∈ notesWords, tok ≠ [] ∧ ' ' ∉ tok := by decide

/-- Keyword presence only depends on which texts occur, not on their order
or multiplicity. -/
lemma containsAny_chatTextOf_mono (toks : List Str)
    (hgood : ∀ tok ∈ toks, tok ≠ [] ∧ ' ' ∉ tok) {l l' : List Str}
    (hsub : ∀ t ∈ l, t ∈ l')
    (h : containsAny (chatTextOf l) toks = true) :
    containsAny (chatTextOf l') toks = true := by
  rw [containsAny_chatTextOf toks hgood] at h ⊢
  rcases h with ⟨tok, htok, t, ht, htt⟩
  exact ⟨tok, htok, t, hsub t ht, htt⟩

lemma hasDigit_chatTextOf_mono {l l' : List Str} (hsub : ∀ t ∈ l, t ∈ l')
    (h : hasDigit (chatTextOf l) = true) : hasDigit (chatTextOf l') = true := by
  rw [hasDigit_chatTextOf] at h ⊢
  rcases h with ⟨t, ht, htt⟩
  exact ⟨t, hsub t ht, htt⟩

/-- Every slot boolean is monotone in the set of transcript texts. -/
lemma fieldFlags_mono (answers : List (Str × Str)) {l l' : List Str}
    (hsub : ∀ t ∈ l, t ∈ l')
    (h : ∀ b ∈ fieldFlags answers (chatTextOf l), b = true) :
    ∀ b ∈ fieldFlags answers (chatTextOf l'), b = true := by
  simp only [fieldFlags, List.mem_cons, List.not_mem_nil, or_false,
    forall_eq_or_imp, forall_eq, Bool.or_eq_true, Bool.and_eq_true] at h ⊢
  obtain ⟨h1, h2, h3, h4, h5, h6, h7⟩ := h
  refine ⟨?_, ?_, ?_, ?_, ?_, ?_, ?_⟩
  · rcases h1 with ha | ⟨hc, hd⟩
    · exact Or.inl ha
    · exact Or.inr ⟨containsAny_chatTextOf_mono _ budgetWords_good hsub hc,
        hasDigit_chatTextOf_mono hsub hd⟩
  · rcases h2 with ha | hc
    · exact Or.inl ha
    · exact Or.inr (containsAny_chatTextOf_mono _ colorWords_good hsub hc)
  · rcases h3 with ha | hc
    · exact Or.inl ha
    · exact Or.inr (containsAny_chatTextOf_mono _ rgbWords_good hsub hc)
  · rcases h4 with ha | hc
    · exact Or.inl ha
    · exact Or.inr (containsAny_chatTextOf_mono _ aestheticsWords_good hsub hc)
  · rcases h5 with ha | hc
    · exact Or.inl ha
    · exact Or.inr (containsAny_chatTextOf_mono _ useCaseWords_good hsub hc)
  · rcases h6 with ha | hc
    · exact Or.inl ha
    · exact Or.inr (containsAny_chatTextOf_mono _ upgradeWords_good hsub hc)
  · rcases h7 with ha | hc
    · exact Or.inl ha
    · exact Or.inr (containsAny_chatTextOf_mono _ notesWords_good hsub hc)

/-- The Completion Policy is invariant under reordering the transcript. -/
lemma are_all_fields_collected_perm {s s' : PCBuilderSession}
    (ha : s.answers = s'.answers)
    (hp : s.chat_history.Perm s'.chat_history) :
    are_all_fields_collected s = are_all_fields_collected s' := by
  have hmem : ∀ t ∈ s.chat_history.map ChatMsg.text,
      t ∈ s'.chat_history.map ChatMsg.text :=
    fun t ht => ((hp.map ChatMsg.text).mem_iff).1 ht
  have hmem' : ∀ t ∈ s'.chat_history.map ChatMsg.text,
      t ∈ s.chat_history.map ChatMsg.text :=
    fun t ht => ((hp.map ChatMsg.text).mem_iff).2 ht
  rw [Bool.eq_iff_iff, are_all_fields_collected_iff,
    are_all_fields_collected_iff]
  constructor
  · intro h
    rw [← ha]
    exact fieldFlags_mono s.answers hmem h
  · intro h
    rw [ha]
    exact fieldFlags_mono s'.answers hmem' h

/-- Decimal digits of a natural number, most significant first
(the digit string produced by Python str on a nonnegative int). -/
def natToDec (n : Nat) : Str :=
  if h : n < 10 then [Char.ofNat (48 + n)]
  else natToDec (n / 10) ++ [Char.ofNat (48 + n % 10)]
decreasing_by
  exact Nat.div_lt_self (by omega) (by omega)

/-- Value of a string of decimal digits (Python int on such a string). -/
def decToNat (s : Str) : Nat :=
  s.foldl (fun acc c => acc * 10 + (c.toNat - 48)) 0

lemma decToNat_append (a b : Str) :
    (a ++ b).foldl (fun acc c => acc * 10 + (c.toNat - 48)) 0 =
      b.foldl (fun acc c => acc * 10 + (c.toNat - 48)) (decToNat a) := by
  rw [decToNat, List.foldl_append]

lemma toNat_ofNat_small (n : Nat) (h : n < 256) : (Char.ofNat n).toNat = n := by
  unfold Char.ofNat
  rw [dif_pos (Or.inl (by omega : n < 0xd800))]
  rfl

lemma decToNat_accum (s : Str) (a : Nat) :
    s.foldl (fun acc c => acc * 10 + (c.toNat - 48)) a =
      a * 10 ^ s.length + decToNat s := by
  induction s generalizing a with
  | nil => simp [decToNat]
  | cons c r ih =>
    simp only [List.foldl_cons, decToNat, List.length_cons]
    rw [ih, ih (0 * 10 + (c.toNat - 48))]
    ring

/-- Parsing the produced digit string recovers the number. -/
lemma decToNat_natToDec (n : Nat) : decToNat (natToDec n) = n := by
  induction n using Nat.strong_induction_on with
  | _ n ih =>
    rw [natToDec]
    by_cases h : n < 10
    · rw [dif_pos h]
      simp [decToNat, toNat_ofNat_small (48 + n) (by omega)]
    · rw [dif_neg h, decToNat, decToNat_append,
        decToNat_accum _ (decToNat (natToDec (n / 10))),
        ih (n / 10) (Nat.div_lt_self (by omega) (by omega))]
      simp [decToNat, toNat_ofNat_small (48 + n % 10) (by omega)]
      omega

/-- Every character of the produced digit string is an ASCII digit. -/
lemma natToDec_digits (n : Nat) : ∀ c ∈ natToDec n, c.isDigit = true := by
  induction n using Nat.strong_induction_on with
  | _ n ih =>
    rw [natToDec]
    by_cases h : n < 10
    · rw [dif_pos h]
      intro c hc
      rcases List.mem_singleton.1 hc with rfl
      rw [show (Char.ofNat (48 + n)).isDigit =
          (decide (48 ≤ (Char.ofNat (48 + n)).toNat) &&
            decide ((Char.ofNat (48 + n)).toNat ≤ 57)) from rfl,
        toNat_ofNat_small (48 + n) (by omega)]
      simp
      omega
    · rw [dif_neg h]
      intro c hc
      rcases List.mem_append.1 hc with hc | hc
      · exact ih (n / 10) (Nat.div_lt_self (by omega) (by omega)) c hc
      · rcases List.mem_singleton.1 hc with rfl
        rw [show (Char.ofNat (48 + n % 10)).isDigit =
            (decide (48 ≤ (Char.ofNat (48 + n % 10)).toNat) &&
              decide ((Char.ofNat (48 + n % 10)).toNat ≤ 57)) from rfl,
          toNat_ofNat_small (48 + n % 10) (by omega)]
        simp
        omega

lemma natToDec_ne_nil (n : Nat) : natToDec n ≠ [] := by
  rw [natToDec]
  by_cases h : n < 10
  · rw [dif_pos h]
    simp
  · rw [dif_neg h]
    simp

/-- The numeric part of the budget slot: the source removes commas and runs
re.search for a digit run, then applies int.  Embedded as the first maximal
run of ASCII digits after removing commas. -/
def parse_budget_number (s : Str) : Option Nat :=
  let noCommas := s.filter (fun c => c ≠ ',')
  let digits := (noCommas.dropWhile (fun c => !c.isDigit)).takeWhile Char.isDigit
  if digits.isEmpty then none else some (decToNat digits)

/-- Gaming keywords of the unparseable-budget branch of build_prompt. -/
def gamingWords : List Str :=
  ["fortnite".toList, "gaming".toList, "game".toList]

/-- Budget-advice keywords of the unparseable-budget branch of build_prompt. -/
def budgetAdviceWords : List Str :=
  ["budget".toList, "cost".toList, "price".toList,
   "spend".toList, "afford".toList]

/-- adjusted_budget as computed in PCBuildGenerator.build_prompt.
Python int(budget_val * 0.85) truncates the nonnegative product, embedded
as the Nat floor division 17 * v / 20 (exact for the budget magnitudes the
bot handles, where the double product is at least 1/20 away from crossing
an integer).  The source then takes min with v - 200 and re-clamps to
v - 200 when the remaining gap is below 200. -/
def adjusted_budget (budget_text : Str) : Int :=
  match parse_budget_number budget_text with
  | some v =>
    let reduced : Int := ((17 * v) / 20 : Nat)
    let adjusted : Int := min reduced ((v : Int) - 200)
    if (v : Int) - adjusted < 200 then (v : Int) - 200 else adjusted
  | none =>
    let bl := lowerStr budget_text
    if containsAny bl gamingWords then 800
    else if containsAny bl budgetAdviceWords then 1200
    else 1000

/-- C5: for a budget text that parses to a number v the derived ceiling is
min(floor(v*0.85), v-200) (the re-clamp branch of the source can never
fire, because the min is already at most v-200, so the gap is never below
200); for an unparseable budget text the ceiling is 800 with a gaming
keyword, 1200 with a budget-advice keyword (gaming tested first), and 1000
otherwise. -/
theorem budget_ceiling_rule :
    (∀ text v, parse_budget_number text = some v →
      adjusted_budget text =
        min (((17 * v) / 20 : Nat) : Int) ((v : Int) - 200)) ∧
    (∀ text, parse_budget_number text = none →
      containsAny (lowerStr text) gamingWords = true →
      adjusted_budget text = 800) ∧
    (∀ text, parse_budget_number text = none →
      containsAny (lowerStr text) gamingWords = false →
      containsAny (lowerStr text) budgetAdviceWords = true →
      adjusted_budget text = 1200) ∧
    (∀ text, parse_budget_number text = none →
      containsAny (lowerStr text) gamingWords = false →
      containsAny (lowerStr text) budgetAdviceWords = false →
      adjusted_budget text = 1000) := by
  refine ⟨?_, ?_, ?_, ?_⟩
  · intro text v h
    simp only [adjusted_budget, h]
    have hmin : min (((17 * v) / 20 : Nat) : Int) ((v : Int) - 200) ≤
        (v : Int) - 200 := min_le_right _ _
    rw [if_neg (by omega)]
  · intro text h hg
    simp [adjusted_budget, h, hg]
  · intro text h hg hb
    simp [adjusted_budget, h, hg, hb]
  · intro text h hg hb
    simp [adjusted_budget, h, hg, hb]

/-- Witness for C5 at the concrete inputs "1000" (parseable) and
"no idea, maybe for fortnite" (unparseable, gaming keyword). -/
theorem budget_ceiling_rule_witness :
    adjusted_budget "1000".toList =
        min ((17 * 1000 / 20 : Nat) : Int) ((1000 : Int) - 200) ∧
      adjusted_budget "no idea, maybe for fortnite".toList = 800 :=
  ⟨budget_ceiling_rule.1 _ 1000 (by decide),
   budget_ceiling_rule.2.1 _ (by decide) (by decide)⟩

/-- C4 counterexample: the claim says budget text "1000" yields ceiling
650; the code yields min(850, 800) = 800. -/
theorem budget_1000_ceiling_counterexample :
    adjusted_budget "1000".toList = 800 ∧ (800 : Int) ≠ 650 := by
  exact ⟨by decide, by decide⟩

/-- C4 amended: "1000" yields 800 (850 vs 800, take the smaller), "2000"
yields 1700, and the unparseable gaming text yields the 800 default. -/
theorem budget_ceiling_concrete_values :
    adjusted_budget "1000".toList = 800 ∧
      adjusted_budget "2000".toList = 1700 ∧
      adjusted_budget "no idea, maybe for fortnite".toList = 800 := by
  exact ⟨by decide, by decide, by decide⟩

/-- Python int applied to a dictionary key string: succeeds on a nonempty
all-digit string (the only key shape save_sessions ever writes). -/
def parseNat (s : Str) : Option Nat :=
  if s ≠ [] ∧ s.all Char.isDigit = true then some (decToNat s) else none

lemma parseNat_natToDec (n : Nat) : parseNat (natToDec n) = some n := by
  rw [parseNat, if_pos, decToNat_natToDec]
  exact ⟨natToDec_ne_nil n, List.all_eq_true.2 (natToDec_digits n)⟩

/-- The dictionary written by PCBuilderSession.to_dict and read by
from_dict.  Every field is Option because from_dict reads with dict.get
and supplies a default when the key is absent; user_id is Option because
from_dict indexes it directly and a missing key raises KeyError. -/
structure SessionData where
  user_id : Option Nat
  chat_history : Option (List ChatMsg)
  answers : Option (List (Str × Str))
  build_result : Option Str
  refinement_mode : Option Bool
  conversation_mode : Option Bool
  feedback_mode : Option Bool
  user_feedback : Option Str
  build_edits : Option (List Str)
  created_at : Option Str
  last_activity : Option Str
deriving DecidableEq, Repr

/-- PCBuilderSession.to_dict: serialize every field. -/
def PCBuilderSession.to_dict (s : PCBuilderSession) : SessionData where
  user_id := some s.user_id
  chat_history := some s.chat_history
  answers := some s.answers
  build_result := some s.build_result
  refinement_mode := some s.refinement_mode
  conversation_mode := some s.conversation_mode
  feedback_mode := some s.feedback_mode
  user_feedback := some s.user_feedback
  build_edits := some s.build_edits
  created_at := s.created_at
  last_activity := s.last_activity

/-- PCBuilderSession.from_dict: rebuild a session, defaulting every field
except user_id, whose absence raises (modelled as none). -/
def PCBuilderSession.from_dict (d : SessionData) : Option PCBuilderSession :=
  d.user_id.map fun uid =>
    { user_id := uid
      chat_history := d.chat_history.getD []
      answers := d.answers.getD []
      build_result := d.build_result.getD []
      refinement_mode := d.refinement_mode.getD false
      conversation_mode := d.conversation_mode.getD false
      feedback_mode := d.feedback_mode.getD false
      user_feedback := d.user_feedback.getD []
      build_edits := d.build_edits.getD []
      created_at := d.created_at
      last_activity := d.last_activity }

lemma from_dict_to_dict (s : PCBuilderSession) :
    PCBuilderSession.from_dict s.to_dict = some s := rfl

/-- The in-memory session map (SessionManager.sessions), embedded as an
association list keyed by user id. -/
abbrev SessionMap := List (Nat × PCBuilderSession)

/-- The data dictionary built by SessionManager.save_sessions before it is
serialized: `data[str(user_id)] = session.to_dict()`. -/
def save_sessions_data (m : SessionMap) : List (Str × SessionData) :=
  m.map fun p => (natToDec p.1, p.2.to_dict)

/-- Parsed contents of the durable mirror file.  json.load is an external
library call, embedded at the value level: a file either parses to the
serialized mapping or fails to parse (an empty, truncated or otherwise
malformed mirror). -/
inductive MirrorContent where
  | valid (entries : List (Str × SessionData))
  | malformed
deriving DecidableEq, Repr

/-- Dictionary assignment `self.sessions[user_id] = session`: replace the
binding if the key is present, append it otherwise. -/
def insertSession (m : SessionMap) (uid : Nat) (s : PCBuilderSession) :
    SessionMap :=
  if m.any (fun p => p.1 = uid) then
    m.map fun p => if p.1 = uid then (uid, s) else p
  else m ++ [(uid, s)]

/-- The load loop of SessionManager.load_sessions: each entry key goes
through int() and each value through from_dict; a failure raises out of
the loop into the surrounding except handler, which keeps whatever was
already inserted. -/
def loadEntries : List (Str × SessionData) → SessionMap → SessionMap
  | [], acc => acc
  | (k, d) :: rest, acc =>
    match parseNat k, PCBuilderSession.from_dict d with
    | some uid, some s => loadEntries rest (insertSession acc uid s)
    | _, _ => acc

/-- SessionManager.load_sessions on a fresh store (the constructor starts
with an empty map and calls this).  The file argument is none when the
mirror file does not exist; lockOk is false when the FileLock context
raises on acquisition (swallowed by the except handler).  Every failure
path leaves the map empty, so the routine never raises. -/
def load_sessions (lockOk : Bool) (file : Option MirrorContent) : SessionMap :=
  match file with
  | none => []
  | some content =>
    if lockOk then
      match content with
      | .valid entries => loadEntries entries []
      | .malformed => []
    else []

lemma insertSession_append {acc : SessionMap} {uid : Nat}
    (s : PCBuilderSession) (h : ∀ q ∈ acc, q.1 ≠ uid) :
    insertSession acc uid s = acc ++ [(uid, s)] := by
  rw [insertSession, if_neg]
  simp only [List.any_eq_true, decide_eq_true_eq, not_exists, not_and]
  intro q hq
  exact h q hq

lemma loadEntries_save (m : SessionMap) (acc : SessionMap)
    (hnd : (m.map Prod.fst).Nodup)
    (hdisj : ∀ p ∈ m, ∀ q ∈ acc, q.1 ≠ p.1) :
    loadEntries (save_sessions_data m) acc = acc ++ m := by
  induction m generalizing acc with
  | nil => simp [save_sessions_data, loadEntries]
  | cons p rest ih =>
    obtain ⟨uid, s⟩ := p
    simp only [List.map_cons, List.nodup_cons, List.mem_map] at hnd
    rw [save_sessions_data, List.map_cons]
    simp only [loadEntries, parseNat_natToDec, from_dict_to_dict]
    rw [insertSession_append s
      (fun q hq => hdisj (uid, s) (List.mem_cons_self _ _) q hq)]
    have hrec : loadEntries (save_sessions_data rest) (acc ++ [(uid, s)]) =
        (acc ++ [(uid, s)]) ++ rest := by
      refine ih _ hnd.2 ?_
      intro r hr q hq
      rcases List.mem_append.1 hq with hq | hq
      · exact hdisj r (List.mem_cons_of_mem _ hr) q hq
      · rcases List.mem_singleton.1 hq with rfl
        intro hcon
        exact hnd.1 ⟨r, hr, hcon.symm⟩
    rw [show save_sessions_data rest =
        rest.map (fun p => (natToDec p.1, p.2.to_dict)) from rfl] at hrec
    rw [hrec, List.append_assoc]
    rfl

/-- C6: flushing the in-memory map and loading it back into a fresh store
(a restart) reproduces every session record exactly: identity, phase
flags, answers, transcript, build result, feedback, edit log and both
timestamps all round-trip. -/
theorem flush_load_round_trip (m : SessionMap)
    (hnd : (m.map Prod.fst).Nodup) :
    load_sessions true (some (.valid (save_sessions_data m))) = m := by
  rw [load_sessions]
  simpa using loadEntries_save m [] hnd (by simp)

/-- A concrete session record used by the closed witnesses. -/
def sampleSession (uid : Nat) : PCBuilderSession where
  user_id := uid
  chat_history := [⟨"user".toList, "hi there".toList⟩,
    ⟨"assistant".toList, "what budget".toList⟩]
  answers := [("budget".toList, "800".toList)]
  build_result := "a build".toList
  refinement_mode := false
  conversation_mode := true
  feedback_mode := false
  user_feedback := []
  build_edits := ["cheaper ram".toList]
  created_at := some "2026-01-01T00:00:00".toList
  last_activity := some "2026-01-02T00:00:00".toList

/-- Witness for C6: a two-session map round-trips through flush and load. -/
theorem flush_load_round_trip_witness :
    load_sessions true (some (.valid (save_sessions_data
        [(5, sampleSession 5), (12, sampleSession 12)]))) =
      [(5, sampleSession 5), (12, sampleSession 12)] :=
  flush_load_round_trip _ (by decide)

/-- C8: loading with a missing mirror file, or with a mirror whose
contents fail to parse, yields the empty session map on every lock
outcome; the load routine is a total function, so no error escapes it. -/
theorem load_sessions_missing_or_malformed_yields_empty :
    (∀ lockOk, load_sessions lockOk none = []) ∧
      (∀ lockOk, load_sessions lockOk (some .malformed) = []) := by
  constructor <;> intro lockOk <;> cases lockOk <;> rfl

/-- The durable mirror contents observable at the atomic step boundaries
of SessionManager.save_sessions: the code opens the mirror with mode w,
which truncates it in place, then json.dump writes the new serialization.
There is no temporary file and no atomic rename, so the intermediate
state is an empty (hence unparseable) mirror. -/
def save_sessions_mirror_states (old : MirrorContent) (m : SessionMap) :
    List MirrorContent :=
  [old, .malformed, .valid (save_sessions_data m)]

/-- C1: a flush interrupted right after the truncating open leaves the
mirror unparseable, and a subsequent load recovers nothing, even though
the pre-flush mirror held a loadable session map: the previous durable
state is not preserved, contradicting the write-to-temp-then-replace
discipline the claim asserts. -/
theorem save_sessions_truncate_loses_previous_state :
    (save_sessions_mirror_states
        (.valid (save_sessions_data [(5, sampleSession 5)]))
        [(12, sampleSession 12)]).get? 1 = some .malformed ∧
      load_sessions true (some .malformed) = [] ∧
      load_sessions true (some (.valid (save_sessions_data
          [(5, sampleSession 5)]))) = [(5, sampleSession 5)] := by
  have h5 : natToDec 5 = ['5'] := by
    rw [natToDec]
    rfl
  refine ⟨rfl, rfl, ?_⟩
  rw [show save_sessions_data [(5, sampleSession 5)] =
      [(natToDec 5, (sampleSession 5).to_dict)] from rfl, h5]
  decide

/-- The per-session staleness test inside cleanup_old_sessions.  parseIso
embeds datetime.fromisoformat, a deterministic external library parser,
as an abstract function; a missing last_activity (None raises TypeError)
or an unparseable one (ValueError) lands in the bare except and schedules
the session for removal, otherwise the parsed time is compared with the
cutoff. -/
def staleFor (parseIso : Str → Option Int) (cutoff : Int)
    (s : PCBuilderSession) : Bool :=
  match s.last_activity.bind parseIso with
  | none => true
  | some t => decide (t < cutoff)

/-- SessionManager.cleanup_old_sessions: compute the cutoff, collect the
ids of stale sessions, delete them from the map, and flush (second
component) exactly when something was removed. -/
def cleanup_old_sessions (parseIso : Str → Option Int) (now maxAge : Int)
    (m : SessionMap) : SessionMap × Bool :=
  let cutoff := now - maxAge
  let toRemove := (m.filter fun p => staleFor parseIso cutoff p.2).map Prod.fst
  (m.filter fun p => !(decide (p.1 ∈ toRemove)), !toRemove.isEmpty)

lemma cleanup_result_not_stale (parseIso : Str → Option Int)
    (now maxAge : Int) (m : SessionMap) :
    ∀ p ∈ (cleanup_old_sessions parseIso now maxAge m).1,
      staleFor parseIso (now - maxAge) p.2 = false := by
  intro p hp
  rw [cleanup_old_sessions] at hp
  simp only [List.mem_filter, Bool.not_eq_true', decide_eq_false_iff_not,
    List.mem_map, List.mem_filter, not_exists, not_and] at hp
  obtain ⟨hpm, hkey⟩ := hp
  by_contra hstale
  rw [Bool.not_eq_false] at hstale
  exact hkey p ⟨hpm, hstale⟩ rfl

/-- C7: one pass removes the stale records; a second pass with the same
clock removes nothing, returns the map unchanged, and does not flush. -/
theorem cleanup_old_sessions_idempotent (parseIso : Str → Option Int)
    (now maxAge : Int) (m : SessionMap) :
    cleanup_old_sessions parseIso now maxAge
        (cleanup_old_sessions parseIso now maxAge m).1 =
      ((cleanup_old_sessions parseIso now maxAge m).1, false) := by
  have hns := cleanup_result_not_stale parseIso now maxAge m
  set m1 := (cleanup_old_sessions parseIso now maxAge m).1 with hm1
  have hfilter : (m1.filter fun p => staleFor parseIso (now - maxAge) p.2)
      = [] := by
    rw [List.filter_eq_nil_iff]
    intro p hp
    rw [hns p hp]
    simp
  rw [cleanup_old_sessions]
  simp [hfilter]

lemma staleFor_of_bind_none {parseIso : Str → Option Int} {cutoff : Int}
    {s : PCBuilderSession} (h : Option.bind s.last_activity parseIso = none) :
    staleFor parseIso cutoff s = true := by
  unfold staleFor
  rw [h]

lemma staleFor_of_parse {parseIso : Str → Option Int} {cutoff : Int}
    {s : PCBuilderSession} {str : Str} {t : Int}
    (hla : s.last_activity = some str) (hp : parseIso str = some t) :
    staleFor parseIso cutoff s = decide (t < cutoff) := by
  unfold staleFor
  rw [hla, Option.some_bind, hp]

lemma mem_cleanup_iff (parseIso : Str → Option Int) (now maxAge : Int)
    (m : SessionMap) (p : Nat × PCBuilderSession) :
    p ∈ (cleanup_old_sessions parseIso now maxAge m).1 ↔
      p ∈ m ∧ ∀ q ∈ m,
        staleFor parseIso (now - maxAge) q.2 = true → q.1 ≠ p.1 := by
  rw [cleanup_old_sessions]
  simp only [List.mem_filter, Bool.not_eq_true', decide_eq_false_iff_not,
    List.mem_map, List.mem_filter, not_exists, not_and]
  constructor
  · rintro ⟨hpm, hkey⟩
    exact ⟨hpm, fun q hq hstale => hkey q ⟨hq, hstale⟩⟩
  · rintro ⟨hpm, hkey⟩
    exact ⟨hpm, fun q hmem => hkey q hmem.1 hmem.2⟩

/-- C10: cleanup_old_sessions removes every session whose last_activity is
absent or fails to parse, regardless of how recent the session might be;
a session with a parseable last_activity survives exactly when its parsed
time is not before the cutoff. -/
theorem cleanup_removes_unparseable_regardless_of_age
    (parseIso : Str → Option Int) (now maxAge : Int) (m : SessionMap)
    (hnd : (m.map Prod.fst).Nodup) :
    (∀ p ∈ m, Option.bind p.2.last_activity parseIso = none →
      p ∉ (cleanup_old_sessions parseIso now maxAge m).1) ∧
    (∀ p ∈ m, ∀ str t, p.2.last_activity = some str → parseIso str = some t →
      (p ∈ (cleanup_old_sessions parseIso now maxAge m).1 ↔
        ¬ t < now - maxAge)) := by
  constructor
  · intro p hpm hbind hresult
    rw [mem_cleanup_iff] at hresult
    exact hresult.2 p hpm (staleFor_of_bind_none hbind) rfl
  · intro p hpm str t hla hp
    rw [mem_cleanup_iff]
    constructor
    · rintro ⟨-, hkey⟩
      intro hlt
      refine hkey p hpm ?_ rfl
      rw [staleFor_of_parse hla hp, decide_eq_true_eq]
      exact hlt
    · intro hge
      refine ⟨hpm, ?_⟩
      intro q hq hstale hkq
      have hqp : q = p := List.inj_on_of_nodup_map hnd hq hpm hkq
      rw [hqp, staleFor_of_parse hla hp, decide_eq_true_eq] at hstale
      exact hge hstale

/-- Fixed iso-parser used by the closed witnesses: exactly one known
timestamp string parses. -/
def isoFixed : Str → Option Int :=
  fun s => if s = "t20".toList then some 20 else none

/-- A session with a missing last_activity timestamp. -/
def sessNoTs : PCBuilderSession := { sampleSession 1 with last_activity := none }

/-- A session whose last_activity parses (under isoFixed) to time 20. -/
def sessT20 : PCBuilderSession :=
  { sampleSession 2 with last_activity := some "t20".toList }

/-- Witness for C10 on a concrete two-session map with clock 10 and max
age 2: the timestampless session is removed, the session at time 20
survives. -/
theorem cleanup_removes_unparseable_regardless_of_age_witness :
    ((1, sessNoTs) ∉
      (cleanup_old_sessions isoFixed 10 2
        [(1, sessNoTs), (2, sessT20)]).1) ∧
    ((2, sessT20) ∈
        (cleanup_old_sessions isoFixed 10 2
          [(1, sessNoTs), (2, sessT20)]).1 ↔ ¬ (20 : Int) < 10 - 2) :=
  ⟨(cleanup_removes_unparseable_regardless_of_age isoFixed 10 2
      [(1, sessNoTs), (2, sessT20)] (by decide)).1 (1, sessNoTs)
      (by simp) rfl,
   (cleanup_removes_unparseable_regardless_of_age isoFixed 10 2
      [(1, sessNoTs), (2, sessT20)] (by decide)).2 (2, sessT20)
      (by simp) "t20".toList 20 rfl (by decide)⟩

/-- Outcome of a Python block: normal completion or a raised exception. -/
inductive PyOutcome where
  | ok
  | raised (msg : Str)
deriving DecidableEq, Repr

/-- Filesystem state seen by a FileLock: whether the lock marker file
exists, plus the rest of the world (the payload the guarded body works
on). -/
structure LockFs (σ : Type) where
  marker : Bool
  rest : σ

/-- FileLock.acquire: repeatedly try to create the marker exclusively.
Within a single-holder model the marker cannot disappear while we wait,
so the bounded-wait loop succeeds exactly when the marker is initially
absent, and on success the marker is created. -/
def FileLock.acquire {σ : Type} (fs : LockFs σ) : Bool × LockFs σ :=
  if fs.marker then (false, fs) else (true, { fs with marker := true })

/-- FileLock.release: remove the marker if it exists; errors are
swallowed, so this is total and idempotent. -/
def FileLock.release {σ : Type} (fs : LockFs σ) : LockFs σ :=
  { fs with marker := false }

/-- The scoped (with-statement) use of FileLock: enter raises when
acquire fails (and exit is then never invoked); otherwise the body runs
and exit releases unconditionally, whether the body completed normally
or raised, after which any body exception propagates. -/
def FileLock.scoped {σ : Type} (body : LockFs σ → PyOutcome × LockFs σ)
    (fs : LockFs σ) : PyOutcome × LockFs σ :=
  match FileLock.acquire fs with
  | (false, fs1) => (.raised "Could not acquire lock".toList, fs1)
  | (true, fs1) =>
    let r := body fs1
    (r.1, FileLock.release r.2)

/-- C9: whenever the guard is successfully acquired, the marker file is
gone when the scope exits, for every body (even one that raises or
tampers with the marker) and on both the normal and the exceptional
path. -/
theorem filelock_scoped_release_on_all_exits {σ : Type}
    (body : LockFs σ → PyOutcome × LockFs σ) (fs : LockFs σ)
    (hfree : fs.marker = false) :
    (FileLock.scoped body fs).2.marker = false := by
  rw [FileLock.scoped, FileLock.acquire, hfree]
  simp [FileLock.release]

/-- Witness for C9: a body that raises midway still leaves the marker
removed. -/
theorem filelock_scoped_release_witness :
    (FileLock.scoped
        (fun fs : LockFs Nat =>
          (.raised "boom".toList, { fs with rest := 7 }))
        { marker := false, rest := 0 }).2.marker = false :=
  filelock_scoped_release_on_all_exits _ _ rfl

/-- Outcome of one call to the external text-generation collaborator:
either a reply text (possibly empty, the getattr fallback) or a raised
exception (error or timeout). -/
inductive GenOutcome where
  | ok (text : Str)
  | exn (msg : Str)
deriving DecidableEq, Repr

/-- The cross-mark character that starts every user-facing error string
produced by the build generator. -/
def crossMark : Char := Char.ofNat 10060

/-- Error reply when the parts catalog is empty or missing. -/
def errCatalogMsg : Str :=
  crossMark ::
    " Error: Could not load parts data. Please contact an administrator.".toList

/-- Prefix of the reply produced by the except branch of generate_build. -/
def errGenPrefix : Str := crossMark :: " Error generating build: ".toList

/-- Error reply when the collaborator returns empty content. -/
def errEmptyGen : Str :=
  crossMark ::
    " Error: Could not generate build recommendation. Please try again.".toList

/-- Error reply when the catalog is missing during refinement. -/
def errRefCatalog : Str :=
  crossMark :: " Error: Could not load parts data for refinement.".toList

/-- Apology sent by the except branch of handle_conversation_mode. -/
def convApology : Str :=
  ("Sorry, I ran into an issue there. " ++
    "What would you like to know about building a PC?").toList

/-- Apology returned by the except branch of handle_refinement_message
(note that it contains the word change, inside changing). -/
def refApology : Str :=
  ("Sorry, I ran into an issue there. What were you thinking about " ++
    "changing or asking about your build?").toList

/-- Fallback reply when the conversational collaborator returns empty
content (the source writes it with an apostrophe). -/
def defaultConvReply : Str :=
  "I".toList ++ apos ::
    "m here to help! What would you like to know about building a PC?".toList

/-- Fallback reply when the refinement collaborator returns empty
content. -/
def defaultRefReply : Str :=
  "I".toList ++ apos ::
    ("m here to help! What would you like to know about your build " ++
      "or what changes are you thinking about?").toList

/-- The ready marker the conversational collaborator is instructed to
emit once all seven fields are collected. -/
def readySentinel : Str := "<READY_TO_BUILD>".toList

/-- PCBuildGenerator.generate_build: catalog check, then the collaborator
call; an exception is caught and rendered as an error reply, an empty
reply is rendered as an error reply, and otherwise the text is returned.
Every failure path yields a string starting with the cross mark. -/
def generate_build (partsData : Str) (g : GenOutcome) : Str :=
  if partsData.isEmpty then errCatalogMsg
  else
    match g with
    | .exn e => errGenPrefix ++ e
    | .ok t => if t.isEmpty then errEmptyGen else t

/-- The session effect of send_build_result: when the build text is an
error reply (starts with the cross mark) the function returns before
reaching its last line, otherwise it sets feedback_mode. -/
def send_build_result_flag (s : PCBuilderSession) (result : Str) :
    PCBuilderSession :=
  if [crossMark].isPrefixOf result then s else { s with feedback_mode := true }

/-- generate_build_from_conversation: run the generator, store the result,
enter refinement mode, leave conversation mode, then show the result
(which also sets feedback_mode on success).  The returned string is the
reply shown to the user. -/
def generate_build_from_conversation (s : PCBuilderSession)
    (partsData : Str) (gb : GenOutcome) : PCBuilderSession × Str :=
  let result := generate_build partsData gb
  let s1 := { s with
    build_result := result
    refinement_mode := true
    conversation_mode := false }
  (send_build_result_flag s1 result, result)

/-- Constructor for a user chat message. -/
def mkUserMsg (t : Str) : ChatMsg := ⟨"user".toList, t⟩

/-- Constructor for an assistant chat message. -/
def mkAssistantMsg (t : Str) : ChatMsg := ⟨"assistant".toList, t⟩

/-- handle_conversation_mode: append the user message, call the
conversational collaborator (outcome g); an exception is caught by the
except handler, which sends the apology and leaves the session (beyond
the already-appended message) untouched; otherwise an empty reply is
replaced by the default, the ready sentinel or the Completion Policy
triggers build generation (outcome gb), and otherwise the reply is
appended and the activity timestamp refreshed.  The Bool records whether
the Collecting to Generating transition fired on this turn. -/
def handle_conversation_mode (s : PCBuilderSession) (msg : Str)
    (g gb : GenOutcome) (partsData : Str) (now : Str) :
    (PCBuilderSession × Str) × Bool :=
  let s1 := { s with chat_history := s.chat_history ++ [mkUserMsg msg] }
  match g with
  | .exn _ => ((s1, convApology), false)
  | .ok t0 =>
    let ai := if t0.isEmpty then defaultConvReply else t0
    if containsTok ai readySentinel then
      (generate_build_from_conversation s1 partsData gb, true)
    else if are_all_fields_collected s1 then
      (generate_build_from_conversation s1 partsData gb, true)
    else
      (({ s1 with
          chat_history := s1.chat_history ++ [mkAssistantMsg ai]
          last_activity := some now }, ai), false)

/-- PCBuildGenerator.handle_refinement_message: catalog check, then the
refinement collaborator call with its own except handler; the reply
depends only on the catalog and the collaborator outcome (the session
only feeds the prompt text). -/
def handle_refinement_message (partsData : Str) (g : GenOutcome) : Str :=
  if partsData.isEmpty then errRefCatalog
  else
    match g with
    | .exn _ => refApology
    | .ok t => if t.isEmpty then defaultRefReply else t

/-- The change-detection keyword list of handle_refinement_conversation. -/
def changeWords : List Str :=
  ["change".toList, "upgrade".toList, "downgrade".toList, "replace".toList,
   "swap".toList, "different".toList, "better".toList, "cheaper".toList,
   "more".toList, "less".toList, "instead".toList, "rather".toList,
   "prefer".toList]

/-- The literal token that closes a session from refinement. -/
def doneTok : Str := "done".toList

/-- The literal token that restarts a session. -/
def restartTok : Str := "restart".toList

/-- The literal token that cancels a session. -/
def cancelTok : Str := "cancel".toList

/-- handle_refinement_conversation: log the edit unless the message is a
control token, get the refinement reply (outcome g), and when the user
message contains a change keyword and the reply contains the word change,
regenerate the build (outcome gb) and show it (which sets feedback_mode
on success); finally refresh the activity timestamp. -/
def handle_refinement_conversation (s : PCBuilderSession)
    (msg partsData : Str) (g gb : GenOutcome) (now : Str) :
    PCBuilderSession × Str :=
  let s1 :=
    if lowerStr msg = doneTok ∨ lowerStr msg = restartTok ∨
        lowerStr msg = cancelTok then s
    else { s with build_edits := s.build_edits ++ [msg] }
  let resp := handle_refinement_message partsData g
  let s2 :=
    if containsAny (lowerStr msg) changeWords &&
        containsTok (lowerStr resp) "change".toList then
      let newBuild := generate_build partsData gb
      send_build_result_flag { s1 with build_result := newBuild } newBuild
    else s1
  ({ s2 with last_activity := some now }, resp)

lemma send_build_result_flag_of_error {s : PCBuilderSession} {r : Str}
    (h : [crossMark].isPrefixOf r = true) : send_build_result_flag s r = s := by
  rw [send_build_result_flag, if_pos h]

lemma generate_build_exn_error (partsData e : Str) :
    [crossMark].isPrefixOf (generate_build partsData (.exn e)) = true := by
  rw [generate_build]
  by_cases h : partsData.isEmpty
  · rw [if_pos h]
    rfl
  · rw [if_neg h]
    rfl

/-- Phase flags are untouched by a refinement turn whose collaborator
calls all fail. -/
lemma refinement_failure_flags (s : PCBuilderSession)
    (msg partsData : Str) (g : GenOutcome) (e' now : Str) :
    ((handle_refinement_conversation s msg partsData g (.exn e')
        now).1.conversation_mode = s.conversation_mode ∧
      (handle_refinement_conversation s msg partsData g (.exn e')
        now).1.refinement_mode = s.refinement_mode ∧
      (handle_refinement_conversation s msg partsData g (.exn e')
        now).1.feedback_mode = s.feedback_mode) := by
  rw [handle_refinement_conversation]
  dsimp only
  rw [send_build_result_flag_of_error (generate_build_exn_error partsData e')]
  split <;> split <;> exact ⟨rfl, rfl, rfl⟩

/-- C2 amended: every collaborator failure is caught at its call site and
converted into a fixed reply.  On a Collecting turn the conversational
failure leaves all three phase flags unchanged (only the user message is
appended); on a Refining turn a refinement failure (with the
regeneration, if the change heuristic fires on the apology, also failing)
leaves all three phase flags unchanged; but at the build-generation step
a failure still stores the error reply as the build result and forces the
transition out of conversation mode into refinement mode. -/
theorem generation_failure_phase_semantics :
    (∀ (s : PCBuilderSession) (msg e : Str) (gb : GenOutcome)
        (partsData now : Str),
      ((handle_conversation_mode s msg (.exn e) gb partsData
          now).1.1.conversation_mode = s.conversation_mode ∧
        (handle_conversation_mode s msg (.exn e) gb partsData
          now).1.1.refinement_mode = s.refinement_mode ∧
        (handle_conversation_mode s msg (.exn e) gb partsData
          now).1.1.feedback_mode = s.feedback_mode) ∧
      (handle_conversation_mode s msg (.exn e) gb partsData now).1.2 =
        convApology) ∧
    (∀ (s : PCBuilderSession) (msg partsData e e' now : Str),
      ((handle_refinement_conversation s msg partsData (.exn e) (.exn e')
          now).1.conversation_mode = s.conversation_mode ∧
        (handle_refinement_conversation s msg partsData (.exn e) (.exn e')
          now).1.refinement_mode = s.refinement_mode ∧
        (handle_refinement_conversation s msg partsData (.exn e) (.exn e')
          now).1.feedback_mode = s.feedback_mode) ∧
      (handle_refinement_conversation s msg partsData (.exn e) (.exn e')
          now).2 =
        (if partsData.isEmpty then errRefCatalog else refApology)) ∧
    (∀ (s : PCBuilderSession) (partsData e : Str),
      generate_build_from_conversation s partsData (.exn e) =
        ({ s with
            build_result := generate_build partsData (.exn e)
            refinement_mode := true
            conversation_mode := false },
          generate_build partsData (.exn e))) := by
  refine ⟨?_, ?_, ?_⟩
  · intro s msg e gb partsData now
    exact ⟨⟨rfl, rfl, rfl⟩, rfl⟩
  · intro s msg partsData e e' now
    refine ⟨refinement_failure_flags s msg partsData (.exn e) e' now, ?_⟩
    rfl
  · intro s partsData e
    simp only [generate_build_from_conversation]
    rw [send_build_result_flag_of_error (generate_build_exn_error partsData e)]

/-- A session that has every slot structurally answered, sitting in
conversation mode: the next message triggers build generation. -/
def readySession : PCBuilderSession where
  user_id := 9
  chat_history := []
  answers :=
    [("budget".toList, "800".toList), ("color".toList, "black".toList),
     ("rgb_level".toList, "5".toList), ("aesthetics".toList, "5".toList),
     ("use_case".toList, "gaming".toList),
     ("upgradeability".toList, "will".toList),
     ("extra_notes".toList, "none".toList)]
  build_result := []
  refinement_mode := false
  conversation_mode := true
  feedback_mode := false
  user_feedback := []
  build_edits := []
  created_at := some "2026-01-01T00:00:00".toList
  last_activity := some "2026-01-01T00:00:00".toList

/-- C2 counterexample: on the build-generation turn the collaborator
raises, the user still gets the error reply, yet the session is forced
out of conversation mode into refinement mode, so the phase is not left
unchanged as the claim states. -/
theorem build_failure_forces_transition_counterexample :
    readySession.conversation_mode = true ∧
      readySession.refinement_mode = false ∧
      (handle_conversation_mode readySession "hi".toList
          (.ok "thanks".toList) (.exn "boom".toList) "I|CPU|X $100".toList
          "2026-01-02T00:00:00".toList).1.1.conversation_mode = false ∧
      (handle_conversation_mode readySession "hi".toList
          (.ok "thanks".toList) (.exn "boom".toList) "I|CPU|X $100".toList
          "2026-01-02T00:00:00".toList).1.1.refinement_mode = true ∧
      (handle_conversation_mode readySession "hi".toList
          (.ok "thanks".toList) (.exn "boom".toList) "I|CPU|X $100".toList
          "2026-01-02T00:00:00".toList).1.2 =
        errGenPrefix ++ "boom".toList := by
  refine ⟨rfl, rfl, by decide, by decide, by decide⟩

/-- The on_message dispatch for a user who already has a session, for
ordinary messages (the control tokens cancel, restart and done clear or
reset the session and are excluded by hypothesis in the trace theorem):
get_session refreshes the activity timestamp, then the feedback branch
captures the message verbatim and re-enters refinement, else the
refinement branch runs, else the conversation branch runs.  The Bool
records whether the Collecting to Generating transition fired. -/
def on_message_model (s : PCBuilderSession) (msg : Str) (g gb : GenOutcome)
    (partsData now : Str) : PCBuilderSession × Bool :=
  let s0 := { s with last_activity := some now }
  if s0.feedback_mode then
    ({ s0 with
        user_feedback := msg
        feedback_mode := false
        refinement_mode := true }, false)
  else if s0.refinement_mode then
    ((handle_refinement_conversation s0 msg partsData g gb now).1, false)
  else if s0.conversation_mode then
    ((handle_conversation_mode s0 msg g gb partsData now).1.1,
      (handle_conversation_mode s0 msg g gb partsData now).2)
  else (s0, false)

/-- One inbound turn: the user message and the outcomes of the
conversational and the build-generation collaborator calls that the turn
would use. -/
structure Turn where
  msg : Str
  g : GenOutcome
  gb : GenOutcome

/-- Run a sequence of turns through the dispatch, counting how many times
the Collecting to Generating transition fires. -/
def runTrace (s : PCBuilderSession) (turns : List Turn)
    (partsData now : Str) : PCBuilderSession × Nat :=
  match turns with
  | [] => (s, 0)
  | u :: rest =>
    let r := on_message_model s u.msg u.g u.gb partsData now
    let r2 := runTrace r.1 rest partsData now
    (r2.1, (if r.2 then 1 else 0) + r2.2)

lemma send_build_result_flag_conv (s : PCBuilderSession) (r : Str) :
    (send_build_result_flag s r).conversation_mode = s.conversation_mode := by
  rw [send_build_result_flag]
  split <;> rfl

lemma handle_refinement_conv_mode (s : PCBuilderSession)
    (msg partsData : Str) (g gb : GenOutcome) (now : Str) :
    (handle_refinement_conversation s msg partsData g gb
      now).1.conversation_mode = s.conversation_mode := by
  rw [handle_refinement_conversation]
  dsimp only
  split
  · rw [send_build_result_flag_conv]
    split <;> rfl
  · split <;> rfl

/-- Once the session has left conversation mode, no later ordinary turn
fires the transition or re-enters conversation mode. -/
lemma on_message_not_collecting (s : PCBuilderSession) (msg : Str)
    (g gb : GenOutcome) (partsData now : Str)
    (h : s.conversation_mode = false) :
    (on_message_model s msg g gb partsData now).2 = false ∧
      (on_message_model s msg g gb partsData now).1.conversation_mode =
        false := by
  rw [on_message_model]
  dsimp only
  by_cases hf : s.feedback_mode
  · rw [if_pos hf]
    exact ⟨rfl, h⟩
  · rw [if_neg hf]
    by_cases hr : s.refinement_mode
    · rw [if_pos hr]
      refine ⟨rfl, ?_⟩
      rw [handle_refinement_conv_mode]
      exact h
    · rw [if_neg hr, if_neg (by simpa using h)]
      exact ⟨rfl, h⟩

lemma runTrace_not_collecting (turns : List Turn) (s : PCBuilderSession)
    (partsData now : Str) (h : s.conversation_mode = false) :
    (runTrace s turns partsData now).2 = 0 := by
  induction turns generalizing s with
  | nil => rfl
  | cons u rest ih =>
    rw [runTrace]
    dsimp only
    obtain ⟨h1, h2⟩ := on_message_not_collecting s u.msg u.g u.gb
      partsData now h
    rw [h1, ih _ h2]
    rfl

lemma gbfc_conv_mode (s : PCBuilderSession) (partsData : Str)
    (gb : GenOutcome) :
    (generate_build_from_conversation s partsData
      gb).1.conversation_mode = false := by
  rw [generate_build_from_conversation]
  dsimp only
  rw [send_build_result_flag_conv]

lemma on_message_collecting (s : PCBuilderSession) (msg : Str)
    (g gb : GenOutcome) (partsData now : Str)
    (hc : s.conversation_mode = true) (hr : s.refinement_mode = false)
    (hf : s.feedback_mode = false) :
    on_message_model s msg g gb partsData now =
      ((handle_conversation_mode { s with last_activity := some now } msg
          g gb partsData now).1.1,
        (handle_conversation_mode { s with last_activity := some now } msg
          g gb partsData now).2) := by
  rw [on_message_model]
  dsimp only
  rw [if_neg (by simp [hf]), if_neg (by simp [hr]), if_pos (by simp [hc])]

lemma handle_conversation_cases (s : PCBuilderSession) (msg t0 : Str)
    (gb : GenOutcome) (partsData now : Str) :
    ((handle_conversation_mode s msg (.ok t0) gb partsData now).2 = true ∧
      (handle_conversation_mode s msg (.ok t0) gb partsData
        now).1.1.conversation_mode = false) ∨
    ((handle_conversation_mode s msg (.ok t0) gb partsData now).2 = false ∧
      (handle_conversation_mode s msg (.ok t0) gb partsData now).1.1 =
        { s with
          chat_history := s.chat_history ++
            [mkUserMsg msg,
              mkAssistantMsg (if t0.isEmpty then defaultConvReply else t0)]
          last_activity := some now } ∧
      are_all_fields_collected
        { s with chat_history := s.chat_history ++ [mkUserMsg msg] } =
          false) := by
  rw [handle_conversation_mode]
  dsimp only
  generalize (if t0.isEmpty then defaultConvReply else t0) = ai
  split
  · exact Or.inl ⟨rfl, gbfc_conv_mode _ _ _⟩
  · split
    · exact Or.inl ⟨rfl, gbfc_conv_mode _ _ _⟩
    · rename_i hpol
      right
      refine ⟨rfl, ?_, by simpa using hpol⟩
      simp

lemma runTrace_fires_once (turns : List Turn) :
    ∀ (s : PCBuilderSession) (partsData now : Str),
      s.conversation_mode = true → s.refinement_mode = false →
      s.feedback_mode = false →
      (∀ u ∈ turns, ∃ t, u.g = GenOutcome.ok t) →
      turns ≠ [] →
      (∀ b ∈ fieldFlags s.answers
        (chatTextOf (s.chat_history.map ChatMsg.text ++ turns.map Turn.msg)),
        b = true) →
      (runTrace s turns partsData now).2 = 1 := by
  induction turns with
  | nil =>
    intro s partsData now _ _ _ _ hne _
    exact absurd rfl hne
  | cons u rest ih =>
    intro s partsData now hc hr hf hok hne hcov
    obtain ⟨t0, hg⟩ := hok u (List.mem_cons_self _ _)
    rw [runTrace]
    dsimp only
    rw [hg, on_message_collecting s u.msg (.ok t0) u.gb partsData now hc hr hf]
    dsimp only
    rcases handle_conversation_cases { s with last_activity := some now }
        u.msg t0 u.gb partsData now with ⟨hfire, hconv⟩ | ⟨hnf, heq, hpol⟩
    · rw [hfire, runTrace_not_collecting rest _ partsData now hconv]
      simp
    · dsimp only at hpol heq
      rw [hnf, heq]
      have hrest : rest ≠ [] := by
        intro hrnil
        subst hrnil
        have htrue : are_all_fields_collected
            { s with
              chat_history := s.chat_history ++ [mkUserMsg u.msg]
              last_activity := some now } = true := by
          rw [are_all_fields_collected_iff]
          intro b hb
          refine hcov b ?_
          simpa [chatText, chatTextOf, List.map_append, mkUserMsg] using hb
        rw [htrue] at hpol
        exact absurd hpol (by simp)
      have hih := ih
        { s with
          chat_history := s.chat_history ++
            [mkUserMsg u.msg,
              mkAssistantMsg (if t0.isEmpty then defaultConvReply else t0)]
          last_activity := some now }
        partsData now hc hr hf
        (fun v hv => hok v (List.mem_cons_of_mem _ hv)) hrest ?_
      · rw [hih]
        simp
      · intro b hb
        have hb2 : b ∈ fieldFlags s.answers (chatTextOf
            ((s.chat_history.map ChatMsg.text ++
              [u.msg, if t0.isEmpty then defaultConvReply else t0]) ++
              rest.map Turn.msg)) := by
          simpa [chatText, chatTextOf, List.map_append, mkUserMsg,
            mkAssistantMsg] using hb
        refine @fieldFlags_mono s.answers
          (s.chat_history.map ChatMsg.text ++ List.map Turn.msg (u :: rest))
          ((s.chat_history.map ChatMsg.text ++
            [u.msg, if t0.isEmpty then defaultConvReply else t0]) ++
            rest.map Turn.msg) ?_ hcov b hb2
        intro t ht
        simp only [List.map_cons, List.mem_append, List.mem_cons,
          List.not_mem_nil, or_false] at ht ⊢
        tauto

/-- C3: when the user messages of a trace cover all seven required slots
(structured answer or keyword fallback), the Completion Policy holds on
the resulting transcript, the policy is order-insensitive (invariant
under any permutation of the transcript), and a session starting in
conversation mode performs the Collecting to Generating transition
exactly once over the trace (the collaborator calls on these turns return
normally; control tokens, which reset or close the session, are
excluded). -/
theorem slot_completion_policy_and_single_transition
    (s : PCBuilderSession) (turns : List Turn) (partsData now : Str)
    (hc : s.conversation_mode = true) (hr : s.refinement_mode = false)
    (hf : s.feedback_mode = false)
    (hctl : ∀ u ∈ turns, lowerStr u.msg ≠ doneTok ∧
      lowerStr u.msg ≠ restartTok ∧ lowerStr u.msg ≠ cancelTok)
    (hok : ∀ u ∈ turns, ∃ t, u.g = GenOutcome.ok t)
    (hne : turns ≠ [])
    (hcov : ∀ b ∈ fieldFlags s.answers
      (chatTextOf (s.chat_history.map ChatMsg.text ++ turns.map Turn.msg)),
      b = true) :
    are_all_fields_collected
        { s with chat_history := s.chat_history ++
            turns.map (fun u => mkUserMsg u.msg) } = true ∧
      (∀ s₁ s₂ : PCBuilderSession, s₁.answers = s₂.answers →
        s₁.chat_history.Perm s₂.chat_history →
        are_all_fields_collected s₁ = are_all_fields_collected s₂) ∧
      (runTrace s turns partsData now).2 = 1 := by
  refine ⟨?_, ?_, ?_⟩
  · rw [are_all_fields_collected_iff]
    intro b hb
    refine hcov b ?_
    simpa [chatText, chatTextOf, List.map_append, List.map_map,
      Function.comp, mkUserMsg] using hb
  · intro s₁ s₂ ha hp
    exact are_all_fields_collected_perm ha hp
  · exact runTrace_fires_once turns s partsData now hc hr hf hok hne hcov

/-- A freshly reset session in conversation mode (the state right after
the build command). -/
def freshSession : PCBuilderSession where
  user_id := 42
  chat_history := []
  answers := []
  build_result := []
  refinement_mode := false
  conversation_mode := true
  feedback_mode := false
  user_feedback := []
  build_edits := []
  created_at := some "2026-01-01T00:00:00".toList
  last_activity := some "2026-01-01T00:00:00".toList

/-- A single user message whose text covers all seven slots through the
keyword fallback. -/
def coverMsg : Str := "budget 800 black rgb style fortnite upgrade none".toList

/-- Witness for C3: one covering message on a fresh session satisfies the
policy and fires the transition exactly once. -/
theorem slot_completion_policy_witness :
    are_all_fields_collected
        { freshSession with chat_history := freshSession.chat_history ++
            [Turn.mk coverMsg (.ok "fine".toList)
              (.ok "a build".toList)].map (fun u => mkUserMsg u.msg) } =
          true ∧
      (runTrace freshSession
        [Turn.mk coverMsg (.ok "fine".toList) (.ok "a build".toList)]
        "I|CPU|X $100".toList "2026-01-02T00:00:00".toList).2 = 1 := by
  have h := slot_completion_policy_and_single_transition freshSession
    [Turn.mk coverMsg (.ok "fine".toList) (.ok "a build".toList)]
    "I|CPU|X $100".toList "2026-01-02T00:00:00".toList rfl rfl rfl
    (by decide)
    (fun u hu => by
      rcases List.mem_singleton.1 hu with rfl
      exact ⟨"fine".toList, rfl⟩)
    (by simp)
    (by decide)
  exact ⟨h.1, h.2.2⟩
